import Mathlib

/-!
Verification development for the resumable batch-ingestion engine of the
`kds` repository (scraper/src/batch_scraper.py and scraper/src/scrapers/mimedb.py).

The Python source is shallowly embedded: the duck-typed attribute dictionaries
become association lists over a `Val` type, the database session becomes an
explicit list of `Bacteria` rows with rollback modelled as returning the
pre-transaction list, and the orchestrator loop of
`BatchScraper.process_batches` becomes a structurally recursive loop over
batch indices threading an explicit `RunState`. External effects (HTTP
fetching/parsing, database exceptions, operator interrupts) are supplied as
oracles so the theorems quantify over every possible behaviour of the
collaborators.
-/

namespace KDS

/-- A value of one of the duck-typed Python attribute dictionaries:
strings, booleans, numeric tokens (kept as their source text, since no
claim computes with them) or `None`. -/
inductive Val where
  | str (s : String)
  | boolean (b : Bool)
  | num (repr : String)
  | null
deriving DecidableEq, Repr

/-- The extractor output / persistence input: a Python dict from attribute
name to value (`ScrapedRecord` in the spec), embedded as an association
list so that key-presence (`key in data`, `hasattr`) is observable. -/
abbrev AttrMap := List (String × Val)

/-- The column names of the `Bacteria` ORM model
(backend/app/models/bacteria.py, mirrored by the scraper's `src.models`):
`hasattr(existing, key)` in the source is membership in this list. -/
def bacteriaFields : List String :=
  ["id", "bacteria_id", "name",
   "superkingdom", "kingdom", "phylum", "class_name", "order", "family",
   "genus", "species", "strain",
   "gram_stain", "shape", "mobility", "flagellar_presence",
   "number_of_membranes", "oxygen_preference", "optimal_temperature",
   "temperature_range", "habitat", "biotic_relationship",
   "cell_arrangement", "sporulation", "metabolism", "energy_source",
   "is_pathogen", "created_at", "updated_at"]

/-- One stored `Bacteria` row: the attribute values actually set on the
ORM object (columns never assigned are simply absent, like the model
defaults left to the database layer). -/
structure Bacteria where
  attrs : List (String × Val)
deriving DecidableEq, Repr

/-- `getattr(row, k)` for a stored row. -/
def Bacteria.get (b : Bacteria) (k : String) : Option Val :=
  b.attrs.lookup k

/-- Overwrite (or add) one attribute of a row: `setattr(row, k, v)`. -/
def setField (attrs : List (String × Val)) (k : String) (v : Val) :
    List (String × Val) :=
  if attrs.any (fun kv => kv.1 = k) then
    attrs.map (fun kv => if kv.1 = k then (k, v) else kv)
  else
    attrs ++ [(k, v)]

/-- `for key, value in data.items(): if hasattr(existing, key): setattr(existing, key, value)`
— copy every field of the dict that names a model column onto the row. -/
def applyAttr (b : Bacteria) (d : AttrMap) : Bacteria :=
  d.foldl
    (fun b kv =>
      if kv.1 ∈ bacteriaFields then ⟨setField b.attrs kv.1 kv.2⟩ else b)
    b

/-- `Bacteria(**data)` — a fresh row carrying exactly the dict's fields. -/
def bacteriaOfAttr (d : AttrMap) : Bacteria := ⟨d⟩

/-- The storage visible to the scraper: the `bacteria` table as a list of
rows (insertion order = autoincrement id order). -/
abbrev DB := List Bacteria

/-- `data["bacteria_id"]` of a dict (`none` if the key is absent). -/
def attrKey (d : AttrMap) : Option Val := d.lookup "bacteria_id"

/-- One iteration of the loop body of `_save_batch_to_db`: query the first
row whose `bacteria_id` equals the dict's, update it in place if found,
otherwise add a fresh row (flushed at the end of the session, i.e. at the
tail of the list). -/
def upsertOne (db : DB) (d : AttrMap) : DB :=
  match db with
  | [] => [bacteriaOfAttr d]
  | b :: rest =>
    if b.get "bacteria_id" = attrKey d then applyAttr b d :: rest
    else b :: upsertOne rest d

/-- The successful path of `BatchScraper._save_batch_to_db`: apply every
dict of the batch inside one transaction and commit. -/
def saveBatchToDb (db : DB) (recs : List AttrMap) : DB :=
  recs.foldl upsertOne db

/-- `db.query(Bacteria).filter(Bacteria.bacteria_id == key).first()`. -/
def findFirst (db : DB) (key : Option Val) : Option Bacteria :=
  db.find? (fun b => decide (b.get "bacteria_id" = key))

/-- `db.delete(existing)` for the first row matching `key`. -/
def removeFirst (db : DB) (key : Option Val) : DB :=
  match db with
  | [] => []
  | b :: rest =>
    if b.get "bacteria_id" = key then rest
    else b :: removeFirst rest key

/-- In-place mutation of the first row matching `key`. -/
def updateFirst (db : DB) (key : Option Val) (f : Bacteria → Bacteria) : DB :=
  match db with
  | [] => []
  | b :: rest =>
    if b.get "bacteria_id" = key then f b :: rest
    else b :: updateFirst rest key f

/-- `MimeDBScraper.save_bacteria(bacteria_data, duplicate_action)`
(mimedb.py lines 193-246), on its non-exception paths: look up an existing
row with the same `bacteria_id`; `skip` returns success leaving storage
untouched; `update` (and any unknown action, which the source logs and
treats as update) copies the dict's fields onto the existing row; `force`
deletes the existing row and falls through to the fresh insert shared with
the no-collision case.  Returns the new storage plus the boolean result.
(The `except` path, which rolls back and returns `False`, is exogenous —
the pure model cannot raise.) -/
def save_bacteria (db : DB) (data : AttrMap) (duplicate_action : String) :
    DB × Bool :=
  let key := attrKey data
  match findFirst db key with
  | some _ =>
    if duplicate_action = "skip" then (db, true)
    else if duplicate_action = "update" then
      (updateFirst db key (fun b => applyAttr b data), true)
    else if duplicate_action = "force" then
      (removeFirst db key ++ [bacteriaOfAttr data], true)
    else
      (updateFirst db key (fun b => applyAttr b data), true)
  | none => (db ++ [bacteriaOfAttr data], true)

/-! ## The progress file -/

/-- The persisted `ProgressRecord`: the progress-file snapshot
(`last_processed_idx` with `-1` sentinel, and the two id sets; the JSON
file stores the sets as lists, whose order is immaterial, so they are
embedded as finite sets). -/
structure Progress where
  last_processed_idx : Int
  successful_ids : Finset String
  failed_ids : Finset String
deriving DecidableEq

/-- The zero-valued record returned by `_load_progress` when there is no
usable prior state. -/
def freshProgress : Progress :=
  { last_processed_idx := -1, successful_ids := ∅, failed_ids := ∅ }

/-- `BatchScraper._load_progress` (batch_scraper.py lines 65-77) over the
state of the progress file: `none` means the file does not exist
(`os.path.exists` false); `some (.error e)` means opening/`json.load`
raised (unreadable or corrupt contents), which the source logs and falls
through; `some (.ok p)` is a readable record.  The failure cases return
the zero-valued record. -/
def load_progress (file : Option (Except String Progress)) : Progress :=
  match file with
  | some (Except.ok p) => p
  | some (Except.error _) => freshProgress
  | none => freshProgress

/-! ## The batch orchestrator (`BatchScraper.process_batches`) -/

/-- External collaborators of one run: `scrape` is
`MimeDBScraper.scrape_bacteria` (with `none` covering a fetch failure, an
exception during scraping, or a falsy result — all of which the loop files
under local-failed), and `dbFail n` says whether the `n`-th call to
`_save_batch_to_db` of this run raises (in which case the transaction is
rolled back and the exception caught by the loop). -/
structure ScrapeEnv where
  scrape : String → Option AttrMap
  dbFail : Nat → Bool

/-- The mutable state of one `process_batches` invocation, instrumented
with the traces the claims talk about: `saves` records every
`_save_progress` call made so far, `calls` every identifier handed to
`scrape_bacteria`, `payloads` every batch handed to `_save_batch_to_db`
(tagged with the identifier each dict was scraped for). -/
structure RunState where
  db : DB
  successful : Finset String
  failed : Finset String
  progressVar : Progress
  saves : List Progress
  calls : List String
  payloads : List (List (String × AttrMap))
  saveCalls : Nat

/-- `batch_end = min(batch_start + batch_size, len(bacteria_ids))`. -/
def batchEnd (B L q : Nat) : Nat := min (q * B + B) L

/-- `bacteria_ids[batch_start:batch_end]` — the slice of batch `q`. -/
def batchSlice (ids : List String) (B q : Nat) : List String :=
  (ids.take (batchEnd B ids.length q)).drop (q * B)

/-- `[bid for bid in batch_ids if bid not in successful_ids and bid not in failed_ids]`. -/
def batchToProcess (B : Nat) (ids : List String) (s : RunState) (q : Nat) :
    List String :=
  (batchSlice ids B q).filter
    (fun bid => decide (bid ∉ s.successful ∧ bid ∉ s.failed))

/-- The per-item loop outcomes of batch `q`: each remaining identifier
paired with its `scrape_bacteria` result. -/
def batchResults (env : ScrapeEnv) (B : Nat) (ids : List String)
    (s : RunState) (q : Nat) : List (String × Option AttrMap) :=
  (batchToProcess B ids s q).map (fun bid => (bid, env.scrape bid))

/-- `batch_data` (each dict tagged with the identifier it was scraped
for) — the identifiers of this list are `local_successful`. -/
def batchData (env : ScrapeEnv) (B : Nat) (ids : List String)
    (s : RunState) (q : Nat) : List (String × AttrMap) :=
  (batchResults env B ids s q).filterMap
    (fun r => r.2.map (fun d => (r.1, d)))

/-- `local_successful`. -/
def localSuccessful (env : ScrapeEnv) (B : Nat) (ids : List String)
    (s : RunState) (q : Nat) : List String :=
  (batchData env B ids s q).map (fun r => r.1)

/-- `local_failed`. -/
def localFailed (env : ScrapeEnv) (B : Nat) (ids : List String)
    (s : RunState) (q : Nat) : List String :=
  ((batchResults env B ids s q).filter (fun r => r.2.isNone)).map
    (fun r => r.1)

/-- One iteration of the `for batch_idx in range(start_batch, total_batches)`
loop of `process_batches` (batch_scraper.py lines 110-173): skip a batch
whose to-process set is empty; otherwise scrape each remaining item, hand
the collected dicts to `_save_batch_to_db` (on success merge
`local_successful` into `successful_ids`, on exception roll back and merge
them into `failed_ids`), merge `local_failed` into `failed_ids`, rebuild
the `progress` dict with cursor `batch_end - 1` and save it. -/
def processOneBatch (env : ScrapeEnv) (B : Nat) (ids : List String)
    (s : RunState) (q : Nat) : RunState :=
  let tp := batchToProcess B ids s q
  if tp.isEmpty then s
  else
    let data := batchData env B ids s q
    let s1 :=
      if data.isEmpty then s
      else if env.dbFail s.saveCalls then
        { s with saveCalls := s.saveCalls + 1,
                 payloads := s.payloads ++ [data],
                 failed := s.failed ∪ (localSuccessful env B ids s q).toFinset }
      else
        { s with saveCalls := s.saveCalls + 1,
                 payloads := s.payloads ++ [data],
                 db := saveBatchToDb s.db (data.map (fun r => r.2)),
                 successful :=
                   s.successful ∪ (localSuccessful env B ids s q).toFinset }
    let s2 := { s1 with failed := s1.failed ∪ (localFailed env B ids s q).toFinset }
    let prog : Progress :=
      { last_processed_idx := (batchEnd B ids.length q : Int) - 1,
        successful_ids := s2.successful,
        failed_ids := s2.failed }
    { s2 with progressVar := prog,
              saves := s2.saves ++ [prog],
              calls := s2.calls ++ tp }

/-- The batch loop: run `n` consecutive iterations starting at batch
index `q`. -/
def runLoop (env : ScrapeEnv) (B : Nat) (ids : List String) :
    Nat → Nat → RunState → RunState
  | 0, _, s => s
  | n + 1, q, s => runLoop env B ids n (q + 1) (processOneBatch env B ids s q)

/-- The `max_bacteria` truncation (batch_scraper.py lines 92-93; note the
Python truthiness test, under which a limit of `0` is ignored). -/
def effectiveIds (ids : List String) (maxBacteria : Option Nat) : List String :=
  match maxBacteria with
  | some m => if m ≠ 0 ∧ m < ids.length then ids.take m else ids
  | none => ids

/-- `total_batches = (len(bacteria_ids) + self.batch_size - 1) // self.batch_size`. -/
def totalBatches (B L : Nat) : Nat := (L + B - 1) / B

/-- `start_batch = (last_idx + 1) // self.batch_size`, on the cursor's
sentinel domain `last_idx ≥ -1` (where Python floor division agrees with
this nonnegative division). -/
def startBatch (B : Nat) (lastIdx : Int) : Nat := (lastIdx + 1).toNat / B

/-- Where, if anywhere, the run is torn out of its batch loop:
`keyboard k` (an operator `KeyboardInterrupt`) and `error m k` (an
unhandled exception carrying message `m`) both strike after `k`
iterations of the loop have completed. -/
inductive Interrupt where
  | none
  | keyboard (k : Nat)
  | error (msg : String) (k : Nat)

/-- The `ScrapeLog` fields that `process_batches` finalises (the
`RunSummary` of the spec): whether `end_time` was set, and the
`error_message` recorded. -/
structure Summary where
  endTimeSet : Bool
  errorMessage : Option String
deriving DecidableEq, Repr

/-- Everything observable about one `process_batches` invocation: the
loop state (with its traces), the record written by the final
best-effort `_save_progress` in the `finally` block, the finalised
summary, and `raised` — the exception, if any, that the call lets escape
to its caller. -/
structure RunResult where
  state : RunState
  finalSave : Progress
  summary : Summary
  raised : Option String

/-- How many loop iterations actually execute: all of them, or the `k`
completed before the interrupt struck. -/
def iterCount (total start : Nat) : Interrupt → Nat
  | Interrupt.none => total - start
  | Interrupt.keyboard k => min k (total - start)
  | Interrupt.error _ k => min k (total - start)

/-- The in-memory state at the top of the `try` block. -/
def initState (db0 : DB) (p0 : Progress) : RunState :=
  { db := db0,
    successful := p0.successful_ids,
    failed := p0.failed_ids,
    progressVar := p0,
    saves := [],
    calls := [],
    payloads := [],
    saveCalls := 0 }

/-- `BatchScraper.process_batches` (batch_scraper.py lines 86-201):
truncate the discovered identifiers, load progress, compute
`total_batches` and `start_batch`, run the batch loop (cut short by the
interrupt, if any), finalise the summary per the `except` branches (which
catch and do not re-raise, so `raised` is always `none`), and in the
`finally` block save a final record whose cursor is
`max(last_idx, progress["last_processed_idx"])`. -/
def process_batches (env : ScrapeEnv) (B : Nat) (ids0 : List String)
    (maxBacteria : Option Nat) (db0 : DB) (p0 : Progress)
    (intr : Interrupt) : RunResult :=
  let ids := effectiveIds ids0 maxBacteria
  let lastIdx := p0.last_processed_idx
  let total := totalBatches B ids.length
  let start := startBatch B lastIdx
  let s := runLoop env B ids (iterCount total start intr) start (initState db0 p0)
  let summary : Summary :=
    match intr with
    | Interrupt.none => { endTimeSet := true, errorMessage := Option.none }
    | Interrupt.keyboard _ =>
        { endTimeSet := true, errorMessage := some "Interrupted by user" }
    | Interrupt.error m _ => { endTimeSet := true, errorMessage := some m }
  let finalSave : Progress :=
    { last_processed_idx := max lastIdx s.progressVar.last_processed_idx,
      successful_ids := s.successful,
      failed_ids := s.failed }
  { state := s, finalSave := finalSave, summary := summary,
    raised := Option.none }

/-- Every `_save_progress` call of the run, in order: the per-batch
checkpoints followed by the final best-effort save of the `finally`
block. -/
def RunResult.allSaves (r : RunResult) : List Progress :=
  r.state.saves ++ [r.finalSave]

/-! ## The fetcher (`MimeDBScraper.get_page`) -/

/-- What one HTTP attempt does: a 200 response with a body, a non-200
status, or a raised transport exception. -/
inductive AttemptResult where
  | ok (text : String)
  | badStatus (code : Nat)
  | exn
deriving DecidableEq, Repr

/-- The externally visible events of `get_page`: one enforced `delay`
wait, or one HTTP attempt. -/
inductive FetchEvent where
  | sleep
  | attempt
deriving DecidableEq, Repr

/-- The attempt loop of `get_page`, from attempt number `i` with
`remaining` attempts left: sleep `delay`, attempt; on a 200 return the
body, otherwise sleep another `delay` and continue. -/
def getPageAux (att : Nat → AttemptResult) :
    Nat → Nat → List FetchEvent × Option String
  | _, 0 => ([], Option.none)
  | i, r + 1 =>
    match att i with
    | AttemptResult.ok t => ([FetchEvent.sleep, FetchEvent.attempt], some t)
    | _ =>
      let rest := getPageAux att (i + 1) r
      (FetchEvent.sleep :: FetchEvent.attempt :: FetchEvent.sleep :: rest.1,
       rest.2)

/-- `MimeDBScraper.get_page` (mimedb.py lines 35-57) over an oracle
giving each attempt's outcome: the event trace plus the result (`none`
after exhausting `retries` attempts). -/
def get_page (att : Nat → AttemptResult) (retries : Nat) :
    List FetchEvent × Option String :=
  getPageAux att 0 retries

/-- `MimeDBScraper.scrape_bacteria` for one identifier, given a fetcher
and the (pure, total) page parser: a failed fetch yields `none`, a
fetched page yields the parsed dict. -/
def scrape_bacteria (fetch : String → Option String)
    (parse : String → AttrMap) (bacteriaId : String) : Option AttrMap :=
  (fetch bacteriaId).map parse

/-! ## Spec-level invariants on progress records -/

/-- `successful_ids ∩ failed_ids = ∅`. -/
def DisjointSets (p : Progress) : Prop :=
  p.successful_ids ∩ p.failed_ids = ∅

/-- Every identifier at a flat position `≤ last_processed_idx` is
accounted for in one of the two sets (the "no gaps" half of the
ProgressRecord invariant). -/
def Covered (ids : List String) (p : Progress) : Prop :=
  ∀ i : Fin ids.length, (i : Int) ≤ p.last_processed_idx →
    ids.get i ∈ p.successful_ids ∪ p.failed_ids

/-- The ProgressRecord invariant of spec §3. -/
def ProgressInv (ids : List String) (p : Progress) : Prop :=
  DisjointSets p ∧ Covered ids p

instance (p : Progress) : Decidable (DisjointSets p) := by
  unfold DisjointSets; infer_instance

instance (ids : List String) (p : Progress) : Decidable (Covered ids p) := by
  unfold Covered; infer_instance

instance (ids : List String) (p : Progress) : Decidable (ProgressInv ids p) := by
  unfold ProgressInv; infer_instance

/-! ## Step characterization lemmas -/

/-- The cursor value written by the checkpoint of batch `q`. -/
def batchCursor (B L q : Nat) : Int := (batchEnd B L q : Int) - 1

/-- The progress record checkpointed at the end of a processed batch. -/
def progOf (env : ScrapeEnv) (B : Nat) (ids : List String) (s : RunState)
    (q : Nat) : Progress :=
  { last_processed_idx := batchCursor B ids.length q,
    successful_ids := ((processOneBatch env B ids s q).successful),
    failed_ids := ((processOneBatch env B ids s q).failed) }

theorem step_skip (env : ScrapeEnv) (B : Nat) (ids : List String)
    (s : RunState) (q : Nat) (h : (batchToProcess B ids s q).isEmpty = true) :
    processOneBatch env B ids s q = s := by
  simp [processOneBatch, h]

theorem step_nonempty_data_empty (env : ScrapeEnv) (B : Nat)
    (ids : List String) (s : RunState) (q : Nat)
    (h : (batchToProcess B ids s q).isEmpty = false)
    (hd : (batchData env B ids s q).isEmpty = true) :
    processOneBatch env B ids s q =
      { s with
        failed := s.failed ∪ (localFailed env B ids s q).toFinset,
        progressVar :=
          { last_processed_idx := (batchEnd B ids.length q : Int) - 1,
            successful_ids := s.successful,
            failed_ids := s.failed ∪ (localFailed env B ids s q).toFinset },
        saves := s.saves ++
          [{ last_processed_idx := (batchEnd B ids.length q : Int) - 1,
             successful_ids := s.successful,
             failed_ids := s.failed ∪ (localFailed env B ids s q).toFinset }],
        calls := s.calls ++ batchToProcess B ids s q } := by
  simp [processOneBatch, h, hd]

theorem step_db_fail (env : ScrapeEnv) (B : Nat) (ids : List String)
    (s : RunState) (q : Nat)
    (h : (batchToProcess B ids s q).isEmpty = false)
    (hd : (batchData env B ids s q).isEmpty = false)
    (hf : env.dbFail s.saveCalls = true) :
    processOneBatch env B ids s q =
      { s with
        saveCalls := s.saveCalls + 1,
        payloads := s.payloads ++ [batchData env B ids s q],
        failed := (s.failed ∪ (localSuccessful env B ids s q).toFinset) ∪
          (localFailed env B ids s q).toFinset,
        progressVar :=
          { last_processed_idx := (batchEnd B ids.length q : Int) - 1,
            successful_ids := s.successful,
            failed_ids := (s.failed ∪ (localSuccessful env B ids s q).toFinset) ∪
              (localFailed env B ids s q).toFinset },
        saves := s.saves ++
          [{ last_processed_idx := (batchEnd B ids.length q : Int) - 1,
             successful_ids := s.successful,
             failed_ids := (s.failed ∪ (localSuccessful env B ids s q).toFinset) ∪
               (localFailed env B ids s q).toFinset }],
        calls := s.calls ++ batchToProcess B ids s q } := by
  simp [processOneBatch, h, hd, hf]

theorem step_db_ok (env : ScrapeEnv) (B : Nat) (ids : List String)
    (s : RunState) (q : Nat)
    (h : (batchToProcess B ids s q).isEmpty = false)
    (hd : (batchData env B ids s q).isEmpty = false)
    (hf : env.dbFail s.saveCalls = false) :
    processOneBatch env B ids s q =
      { s with
        saveCalls := s.saveCalls + 1,
        payloads := s.payloads ++ [batchData env B ids s q],
        db := saveBatchToDb s.db ((batchData env B ids s q).map (fun r => r.2)),
        successful := s.successful ∪ (localSuccessful env B ids s q).toFinset,
        failed := s.failed ∪ (localFailed env B ids s q).toFinset,
        progressVar :=
          { last_processed_idx := (batchEnd B ids.length q : Int) - 1,
            successful_ids := s.successful ∪ (localSuccessful env B ids s q).toFinset,
            failed_ids := s.failed ∪ (localFailed env B ids s q).toFinset },
        saves := s.saves ++
          [{ last_processed_idx := (batchEnd B ids.length q : Int) - 1,
             successful_ids := s.successful ∪ (localSuccessful env B ids s q).toFinset,
             failed_ids := s.failed ∪ (localFailed env B ids s q).toFinset }],
        calls := s.calls ++ batchToProcess B ids s q } := by
  simp [processOneBatch, h, hd, hf]

/-! ## Membership facts about the per-batch lists -/

theorem mem_batchToProcess {B : Nat} {ids : List String} {s : RunState}
    {q : Nat} {x : String} :
    x ∈ batchToProcess B ids s q ↔
      x ∈ batchSlice ids B q ∧ x ∉ s.successful ∧ x ∉ s.failed := by
  simp [batchToProcess]

theorem mem_localSuccessful {env : ScrapeEnv} {B : Nat} {ids : List String}
    {s : RunState} {q : Nat} {x : String} :
    x ∈ localSuccessful env B ids s q ↔
      x ∈ batchToProcess B ids s q ∧ (env.scrape x).isSome := by
  constructor
  · rintro hx
    simp only [localSuccessful, batchData, batchResults, List.mem_map,
      List.mem_filterMap, Option.map_eq_some'] at hx
    obtain ⟨⟨a, d⟩, ⟨⟨b, od⟩, ⟨⟨bid, hbid, heq⟩, ⟨d2, hd2, heq2⟩⟩⟩, rfl⟩ := hx
    cases heq
    cases heq2
    refine ⟨hbid, ?_⟩
    have hd3 : env.scrape b = some d := by simpa using hd2
    simp [hd3]
  · rintro ⟨htp, hsome⟩
    obtain ⟨d, hd⟩ := Option.isSome_iff_exists.mp hsome
    simp only [localSuccessful, batchData, batchResults, List.mem_map,
      List.mem_filterMap, Option.map_eq_some']
    exact ⟨(x, d), ⟨(x, env.scrape x), ⟨x, htp, rfl⟩, ⟨d, hd, rfl⟩⟩, rfl⟩

theorem mem_localFailed {env : ScrapeEnv} {B : Nat} {ids : List String}
    {s : RunState} {q : Nat} {x : String} :
    x ∈ localFailed env B ids s q ↔
      x ∈ batchToProcess B ids s q ∧ env.scrape x = Option.none := by
  constructor
  · rintro hx
    simp only [localFailed, batchResults, List.mem_map, List.mem_filter,
      List.mem_map] at hx
    obtain ⟨⟨a, od⟩, ⟨⟨bid, hbid, heq⟩, hnone⟩, rfl⟩ := hx
    cases heq
    refine ⟨hbid, ?_⟩
    simpa [Option.isNone_iff_eq_none] using hnone
  · rintro ⟨htp, hnone⟩
    simp only [localFailed, batchResults, List.mem_map, List.mem_filter,
      List.mem_map]
    exact ⟨(x, env.scrape x), ⟨⟨x, htp, rfl⟩, by simp [hnone]⟩, rfl⟩

theorem mem_payload_batchData {env : ScrapeEnv} {B : Nat} {ids : List String}
    {s : RunState} {q : Nat} {pr : String × AttrMap}
    (h : pr ∈ batchData env B ids s q) :
    pr.1 ∈ batchToProcess B ids s q ∧ env.scrape pr.1 = some pr.2 := by
  simp only [batchData, batchResults, List.mem_filterMap, List.mem_map,
    Option.map_eq_some'] at h
  obtain ⟨⟨a, od⟩, ⟨bid, hbid, heq⟩, ⟨d, hd, heq2⟩⟩ := h
  cases heq
  cases heq2
  exact ⟨hbid, hd⟩

/-! ## Loop induction -/

theorem runLoop_ind (env : ScrapeEnv) (B : Nat) (ids : List String)
    (P : Nat → RunState → Prop)
    (hstep : ∀ q s, P q s → P (q + 1) (processOneBatch env B ids s q)) :
    ∀ n q s, P q s → P (q + n) (runLoop env B ids n q s) := by
  intro n
  induction n with
  | zero => intro q s h; simpa using h
  | succ m ih =>
    intro q s h
    have hrec := ih (q + 1) (processOneBatch env B ids s q) (hstep q s h)
    have harith : q + (m + 1) = (q + 1) + m := by omega
    rw [harith]
    exact hrec

/-! ## Shape lemmas about one loop iteration -/

theorem tp_nonempty_of_data {env : ScrapeEnv} {B : Nat} {ids : List String}
    {s : RunState} {q : Nat}
    (hd : (batchData env B ids s q).isEmpty = false) :
    (batchToProcess B ids s q).isEmpty = false := by
  by_contra hc
  have htp : (batchToProcess B ids s q) = [] := by
    cases h : (batchToProcess B ids s q).isEmpty
    · exact absurd h hc
    · exact List.isEmpty_iff.mp h
  have : batchData env B ids s q = [] := by
    simp [batchData, batchResults, htp]
  rw [this] at hd
  simp at hd

theorem step_successful_sub (env : ScrapeEnv) (B : Nat) (ids : List String)
    (s : RunState) (q : Nat) :
    s.successful ⊆ (processOneBatch env B ids s q).successful := by
  by_cases h : (batchToProcess B ids s q).isEmpty = true
  · rw [step_skip env B ids s q h]
  · replace h : (batchToProcess B ids s q).isEmpty = false := by
      simpa using h
    by_cases hd : (batchData env B ids s q).isEmpty = true
    · rw [step_nonempty_data_empty env B ids s q h hd]
    · replace hd : (batchData env B ids s q).isEmpty = false := by simpa using hd
      by_cases hf : env.dbFail s.saveCalls = true
      · rw [step_db_fail env B ids s q h hd hf]
      · replace hf : env.dbFail s.saveCalls = false := by simpa using hf
        rw [step_db_ok env B ids s q h hd hf]
        exact Finset.subset_union_left

theorem step_failed_sub (env : ScrapeEnv) (B : Nat) (ids : List String)
    (s : RunState) (q : Nat) :
    s.failed ⊆ (processOneBatch env B ids s q).failed := by
  by_cases h : (batchToProcess B ids s q).isEmpty = true
  · rw [step_skip env B ids s q h]
  · replace h : (batchToProcess B ids s q).isEmpty = false := by
      simpa using h
    by_cases hd : (batchData env B ids s q).isEmpty = true
    · rw [step_nonempty_data_empty env B ids s q h hd]
      exact Finset.subset_union_left
    · replace hd : (batchData env B ids s q).isEmpty = false := by simpa using hd
      by_cases hf : env.dbFail s.saveCalls = true
      · rw [step_db_fail env B ids s q h hd hf]
        exact Finset.Subset.trans Finset.subset_union_left Finset.subset_union_left
      · replace hf : env.dbFail s.saveCalls = false := by simpa using hf
        rw [step_db_ok env B ids s q h hd hf]
        exact Finset.subset_union_left

theorem step_successful_cases (env : ScrapeEnv) (B : Nat) (ids : List String)
    (s : RunState) (q : Nat) :
    ∀ x ∈ (processOneBatch env B ids s q).successful,
      x ∈ s.successful ∨
        (x ∈ batchToProcess B ids s q ∧ (env.scrape x).isSome) := by
  intro x hx
  by_cases h : (batchToProcess B ids s q).isEmpty = true
  · rw [step_skip env B ids s q h] at hx
    exact Or.inl hx
  · replace h : (batchToProcess B ids s q).isEmpty = false := by
      simpa using h
    by_cases hd : (batchData env B ids s q).isEmpty = true
    · rw [step_nonempty_data_empty env B ids s q h hd] at hx
      exact Or.inl hx
    · replace hd : (batchData env B ids s q).isEmpty = false := by simpa using hd
      by_cases hf : env.dbFail s.saveCalls = true
      · rw [step_db_fail env B ids s q h hd hf] at hx
        exact Or.inl hx
      · replace hf : env.dbFail s.saveCalls = false := by simpa using hf
        rw [step_db_ok env B ids s q h hd hf] at hx
        simp only [Finset.mem_union, List.mem_toFinset] at hx
        rcases hx with hx | hx
        · exact Or.inl hx
        · exact Or.inr (mem_localSuccessful.mp hx)

theorem step_failed_cases (env : ScrapeEnv) (B : Nat) (ids : List String)
    (s : RunState) (q : Nat) :
    ∀ x ∈ (processOneBatch env B ids s q).failed,
      x ∈ s.failed ∨ x ∈ batchToProcess B ids s q := by
  intro x hx
  by_cases h : (batchToProcess B ids s q).isEmpty = true
  · rw [step_skip env B ids s q h] at hx
    exact Or.inl hx
  · replace h : (batchToProcess B ids s q).isEmpty = false := by
      simpa using h
    by_cases hd : (batchData env B ids s q).isEmpty = true
    · rw [step_nonempty_data_empty env B ids s q h hd] at hx
      simp only [Finset.mem_union, List.mem_toFinset] at hx
      rcases hx with hx | hx
      · exact Or.inl hx
      · exact Or.inr (mem_localFailed.mp hx).1
    · replace hd : (batchData env B ids s q).isEmpty = false := by simpa using hd
      by_cases hf : env.dbFail s.saveCalls = true
      · rw [step_db_fail env B ids s q h hd hf] at hx
        simp only [Finset.mem_union, List.mem_toFinset] at hx
        rcases hx with (hx | hx) | hx
        · exact Or.inl hx
        · exact Or.inr (mem_localSuccessful.mp hx).1
        · exact Or.inr (mem_localFailed.mp hx).1
      · replace hf : env.dbFail s.saveCalls = false := by simpa using hf
        rw [step_db_ok env B ids s q h hd hf] at hx
        simp only [Finset.mem_union, List.mem_toFinset] at hx
        rcases hx with hx | hx
        · exact Or.inl hx
        · exact Or.inr (mem_localFailed.mp hx).1

theorem step_calls_shape (env : ScrapeEnv) (B : Nat) (ids : List String)
    (s : RunState) (q : Nat) :
    (processOneBatch env B ids s q).calls = s.calls ∨
      (processOneBatch env B ids s q).calls =
        s.calls ++ batchToProcess B ids s q := by
  by_cases h : (batchToProcess B ids s q).isEmpty = true
  · rw [step_skip env B ids s q h]
    exact Or.inl rfl
  · replace h : (batchToProcess B ids s q).isEmpty = false := by
      simpa using h
    by_cases hd : (batchData env B ids s q).isEmpty = true
    · rw [step_nonempty_data_empty env B ids s q h hd]
      exact Or.inr rfl
    · replace hd : (batchData env B ids s q).isEmpty = false := by simpa using hd
      by_cases hf : env.dbFail s.saveCalls = true
      · rw [step_db_fail env B ids s q h hd hf]
        exact Or.inr rfl
      · replace hf : env.dbFail s.saveCalls = false := by simpa using hf
        rw [step_db_ok env B ids s q h hd hf]
        exact Or.inr rfl

theorem step_payloads_shape (env : ScrapeEnv) (B : Nat) (ids : List String)
    (s : RunState) (q : Nat) :
    (processOneBatch env B ids s q).payloads = s.payloads ∨
      (processOneBatch env B ids s q).payloads =
        s.payloads ++ [batchData env B ids s q] := by
  by_cases h : (batchToProcess B ids s q).isEmpty = true
  · rw [step_skip env B ids s q h]
    exact Or.inl rfl
  · replace h : (batchToProcess B ids s q).isEmpty = false := by
      simpa using h
    by_cases hd : (batchData env B ids s q).isEmpty = true
    · rw [step_nonempty_data_empty env B ids s q h hd]
      exact Or.inl rfl
    · replace hd : (batchData env B ids s q).isEmpty = false := by simpa using hd
      by_cases hf : env.dbFail s.saveCalls = true
      · rw [step_db_fail env B ids s q h hd hf]
        exact Or.inr rfl
      · replace hf : env.dbFail s.saveCalls = false := by simpa using hf
        rw [step_db_ok env B ids s q h hd hf]
        exact Or.inr rfl

/-! ## Unfolding lemmas for `process_batches` -/

theorem process_batches_state (env : ScrapeEnv) (B : Nat) (ids0 : List String)
    (maxB : Option Nat) (db0 : DB) (p0 : Progress) (intr : Interrupt) :
    (process_batches env B ids0 maxB db0 p0 intr).state =
      runLoop env B (effectiveIds ids0 maxB)
        (iterCount (totalBatches B (effectiveIds ids0 maxB).length)
          (startBatch B p0.last_processed_idx) intr)
        (startBatch B p0.last_processed_idx) (initState db0 p0) := rfl

theorem process_batches_finalSave (env : ScrapeEnv) (B : Nat)
    (ids0 : List String) (maxB : Option Nat) (db0 : DB) (p0 : Progress)
    (intr : Interrupt) :
    (process_batches env B ids0 maxB db0 p0 intr).finalSave =
      { last_processed_idx :=
          max p0.last_processed_idx
            ((process_batches env B ids0 maxB db0 p0 intr).state.progressVar.last_processed_idx),
        successful_ids := (process_batches env B ids0 maxB db0 p0 intr).state.successful,
        failed_ids := (process_batches env B ids0 maxB db0 p0 intr).state.failed } := rfl

/-! ## The claims -/

/-- C9: `_load_progress` returns the zero-valued record
`last_processed_idx = -1`, `successful_ids = []`, `failed_ids = []`
whenever the progress file does not exist or its contents are
unreadable/corrupt; both failure modes are handled totally (logged, never
raised), so the run resumes from scratch. -/
theorem C9_load_progress_fresh_on_missing_or_corrupt
    (file : Option (Except String Progress))
    (h : file = Option.none ∨ ∃ e, file = some (Except.error e)) :
    load_progress file =
      { last_processed_idx := -1, successful_ids := ∅, failed_ids := ∅ } := by
  rcases h with rfl | ⟨e, rfl⟩ <;> rfl

theorem C9_witness :
    load_progress (some (Except.error "Expecting value: line 1 column 1")) =
        { last_processed_idx := -1, successful_ids := ∅, failed_ids := ∅ } ∧
      load_progress Option.none =
        { last_processed_idx := -1, successful_ids := ∅, failed_ids := ∅ } :=
  ⟨C9_load_progress_fresh_on_missing_or_corrupt _ (Or.inr ⟨_, rfl⟩),
   C9_load_progress_fresh_on_missing_or_corrupt _ (Or.inl rfl)⟩

/-- C10: when a stored row with the same identifier exists,
`save_bacteria` with duplicate action `skip` leaves storage untouched and
still reports success; with `force` it deletes the existing row and
appends the new data as a fresh row; when no row with that identifier
exists, the data is inserted under any duplicate action. -/
theorem C10_save_bacteria_duplicate_policy (db : DB) (data : AttrMap) :
    ((findFirst db (attrKey data)).isSome →
       save_bacteria db data "skip" = (db, true) ∧
       save_bacteria db data "force" =
         (removeFirst db (attrKey data) ++ [bacteriaOfAttr data], true)) ∧
    (findFirst db (attrKey data) = Option.none →
       ∀ duplicate_action,
         save_bacteria db data duplicate_action =
           (db ++ [bacteriaOfAttr data], true)) := by
  constructor
  · intro h
    obtain ⟨b, hb⟩ := Option.isSome_iff_exists.mp h
    constructor <;> simp [save_bacteria, hb]
  · intro h duplicate_action
    simp [save_bacteria, h]

theorem C10_witness :
    (save_bacteria
        [⟨[("bacteria_id", Val.str "X001"), ("name", Val.str "A")]⟩]
        [("bacteria_id", Val.str "X001"), ("name", Val.str "B")] "skip" =
        ([⟨[("bacteria_id", Val.str "X001"), ("name", Val.str "A")]⟩], true) ∧
      save_bacteria
        [⟨[("bacteria_id", Val.str "X001"), ("name", Val.str "A")]⟩]
        [("bacteria_id", Val.str "X001"), ("name", Val.str "B")] "force" =
        (removeFirst
            [⟨[("bacteria_id", Val.str "X001"), ("name", Val.str "A")]⟩]
            (attrKey [("bacteria_id", Val.str "X001"), ("name", Val.str "B")]) ++
          [bacteriaOfAttr [("bacteria_id", Val.str "X001"), ("name", Val.str "B")]],
         true)) ∧
    (∀ duplicate_action,
      save_bacteria [] [("bacteria_id", Val.str "X002")] duplicate_action =
        ([] ++ [bacteriaOfAttr [("bacteria_id", Val.str "X002")]], true)) :=
  ⟨(C10_save_bacteria_duplicate_policy _ _).1 (by decide),
   (C10_save_bacteria_duplicate_policy _ _).2 (by decide)⟩

/-- C1: in the loop body of `process_batches`, if the persistence call
for a batch raises, the transaction is rolled back (storage unchanged),
every identifier of the batch's to-process set — including the locally
successful ones — ends up in `failed_ids`, and none of them is added to
`successful_ids` (which is left exactly as it was). -/
theorem C1_batch_atomicity (env : ScrapeEnv) (B : Nat) (ids : List String)
    (s : RunState) (q : Nat)
    (hd : (batchData env B ids s q).isEmpty = false)
    (hf : env.dbFail s.saveCalls = true) :
    (processOneBatch env B ids s q).db = s.db ∧
    (∀ x ∈ batchToProcess B ids s q,
       x ∈ (processOneBatch env B ids s q).failed ∧
       x ∉ (processOneBatch env B ids s q).successful) ∧
    (processOneBatch env B ids s q).successful = s.successful := by
  have h := tp_nonempty_of_data hd
  rw [step_db_fail env B ids s q h hd hf]
  refine ⟨rfl, ?_, rfl⟩
  intro x hx
  have hnots : x ∉ s.successful := (mem_batchToProcess.mp hx).2.1
  refine ⟨?_, hnots⟩
  simp only [Finset.mem_union, List.mem_toFinset]
  cases hsc : env.scrape x with
  | none => exact Or.inr (mem_localFailed.mpr ⟨hx, hsc⟩)
  | some d =>
    exact Or.inl (Or.inr (mem_localSuccessful.mpr ⟨hx, by simp [hsc]⟩))

theorem C1_witness :
    ((batchData ⟨fun b => some [("bacteria_id", Val.str b)], fun _ => true⟩ 2
        ["a", "b", "c"] (initState [] freshProgress) 0).isEmpty = false ∧
      (⟨fun b => some [("bacteria_id", Val.str b)], fun _ => true⟩ :
          ScrapeEnv).dbFail (initState [] freshProgress).saveCalls = true) ∧
    ((processOneBatch ⟨fun b => some [("bacteria_id", Val.str b)], fun _ => true⟩
        2 ["a", "b", "c"] (initState [] freshProgress) 0).db =
        (initState [] freshProgress).db ∧
      (∀ x ∈ batchToProcess 2 ["a", "b", "c"] (initState [] freshProgress) 0,
        x ∈ (processOneBatch ⟨fun b => some [("bacteria_id", Val.str b)],
            fun _ => true⟩ 2 ["a", "b", "c"] (initState [] freshProgress) 0).failed ∧
        x ∉ (processOneBatch ⟨fun b => some [("bacteria_id", Val.str b)],
            fun _ => true⟩ 2 ["a", "b", "c"] (initState [] freshProgress) 0).successful) ∧
      (processOneBatch ⟨fun b => some [("bacteria_id", Val.str b)], fun _ => true⟩
          2 ["a", "b", "c"] (initState [] freshProgress) 0).successful =
        (initState [] freshProgress).successful) :=
  ⟨⟨by decide, by decide⟩,
   C1_batch_atomicity _ _ _ _ _ (by decide) (by decide)⟩

/-- C3: identifiers already recorded in the loaded record's
`successful_ids` or `failed_ids` are never handed to
`scrape_bacteria` during a run of `process_batches`; and a batch whose
remaining to-process set is empty leaves the loop state completely
unchanged (no database write, no progress-file write). -/
theorem C3_no_double_processing (env : ScrapeEnv) (B : Nat)
    (ids0 : List String) (maxB : Option Nat) (db0 : DB) (p0 : Progress)
    (intr : Interrupt) :
    (∀ x, x ∈ p0.successful_ids ∪ p0.failed_ids →
       x ∉ (process_batches env B ids0 maxB db0 p0 intr).state.calls) ∧
    (∀ s q, (batchToProcess B (effectiveIds ids0 maxB) s q).isEmpty = true →
       processOneBatch env B (effectiveIds ids0 maxB) s q = s) := by
  constructor
  · intro x hx
    rw [process_batches_state]
    have key : ∀ n q s,
        (p0.successful_ids ⊆ s.successful ∧ p0.failed_ids ⊆ s.failed ∧
          x ∉ s.calls) →
        (p0.successful_ids ⊆ (runLoop env B (effectiveIds ids0 maxB) n q s).successful ∧
          p0.failed_ids ⊆ (runLoop env B (effectiveIds ids0 maxB) n q s).failed ∧
          x ∉ (runLoop env B (effectiveIds ids0 maxB) n q s).calls) := by
      intro n q s hP
      exact runLoop_ind env B (effectiveIds ids0 maxB)
        (fun _ t => p0.successful_ids ⊆ t.successful ∧
          p0.failed_ids ⊆ t.failed ∧ x ∉ t.calls)
        (by
          intro q' t ht
          refine ⟨ht.1.trans (step_successful_sub env B _ t q'),
            ht.2.1.trans (step_failed_sub env B _ t q'), ?_⟩
          rcases step_calls_shape env B (effectiveIds ids0 maxB) t q' with hc | hc
          · rw [hc]; exact ht.2.2
          · rw [hc]
            intro hmem
            rcases List.mem_append.mp hmem with hmem | hmem
            · exact ht.2.2 hmem
            · have := mem_batchToProcess.mp hmem
              rcases Finset.mem_union.mp hx with hx' | hx'
              · exact this.2.1 (ht.1 hx')
              · exact this.2.2 (ht.2.1 hx'))
        n q s hP
    exact (key _ _ _ ⟨Finset.Subset.refl _, Finset.Subset.refl _, by simp [initState]⟩).2.2
  · intro s q hq
    exact step_skip env B _ s q hq

/-- C4: batch membership is purely positional: the identifier at flat
position `i` sits at offset `i % B` of the slice of batch `⌊i / B⌋`;
`total_batches` is the ceiling of `L / B`; resumption starts at batch
index `(cursor + 1)` div `B`; and in the concrete 25-identifier,
batch-size-10 scenario there are 3 batches of sizes 10, 10, 5, and a
saved cursor of 19 resumes at batch index 2 covering exactly positions
20–24. -/
theorem C4_partition_stability :
    (∀ (ids : List String) (B : Nat), 0 < B →
       ∀ i : Fin ids.length,
         (batchSlice ids B ((i : Nat) / B))[(i : Nat) % B]? =
           some (ids.get i)) ∧
    (∀ B L : Nat, totalBatches B L = L ⌈/⌉ B) ∧
    (∀ lastIdx : Int, -1 ≤ lastIdx → ∀ B : Nat,
       (startBatch B lastIdx : Int) = (lastIdx + 1) / (B : Int)) ∧
    (totalBatches 10 ((List.range 25).map toString).length = 3 ∧
     (batchSlice ((List.range 25).map toString) 10 0).length = 10 ∧
     (batchSlice ((List.range 25).map toString) 10 1).length = 10 ∧
     (batchSlice ((List.range 25).map toString) 10 2).length = 5 ∧
     startBatch 10 19 = 2 ∧
     batchSlice ((List.range 25).map toString) 10 2 =
       ["20", "21", "22", "23", "24"]) := by
  refine ⟨?_, ?_, ?_, by decide⟩
  · intro ids B hB i
    unfold batchSlice
    rw [List.getElem?_drop]
    have hqm : (i : Nat) / B * B + (i : Nat) % B = (i : Nat) :=
      Nat.div_add_mod' _ _
    rw [hqm]
    have hi1 : (i : Nat) < batchEnd B ids.length ((i : Nat) / B) := by
      have hmod : (i : Nat) % B < B := Nat.mod_lt _ hB
      have hlt := i.isLt
      unfold batchEnd
      omega
    rw [List.getElem?_take_of_lt hi1]
    simp [List.getElem?_eq_getElem i.isLt, List.get_eq_getElem]
  · intro B L
    rw [totalBatches, Nat.ceilDiv_eq_add_pred_div]
  · intro lastIdx h B
    have h1 : (0 : Int) ≤ lastIdx + 1 := by omega
    conv_rhs => rw [← Int.toNat_of_nonneg h1]
    rfl

theorem C4_witness :
    (0 < 2 ∧
      (batchSlice ["v", "w", "x"] 2 ((2 : Nat) / 2))[(2 : Nat) % 2]? =
        some (["v", "w", "x"].get ⟨2, by decide⟩)) ∧
    ((-1 : Int) ≤ 19 ∧ (startBatch 10 19 : Int) = ((19 : Int) + 1) / (10 : Int)) :=
  ⟨⟨by decide, C4_partition_stability.1 ["v", "w", "x"] 2 (by decide) ⟨2, by decide⟩⟩,
   ⟨by decide, C4_partition_stability.2.2.1 19 (by decide) 10⟩⟩

/-! ## Fetcher lemmas -/

theorem count_attempt_three_sleeps (l : List FetchEvent) :
    (FetchEvent.sleep :: FetchEvent.attempt :: FetchEvent.sleep :: l).count
        FetchEvent.attempt = l.count FetchEvent.attempt + 1 := by
  rw [List.count_cons_of_ne (by decide), List.count_cons_self,
    List.count_cons_of_ne (by decide)]

theorem getPageAux_attempt_count (att : Nat → AttemptResult) :
    ∀ r i, ((getPageAux att i r).1.count FetchEvent.attempt) ≤ r := by
  intro r
  induction r with
  | zero => intro i; simp [getPageAux]
  | succ m ih =>
    intro i
    cases h : att i with
    | ok t =>
      rw [getPageAux]
      simp only [h]
      have hc : ([FetchEvent.sleep, FetchEvent.attempt] : List FetchEvent).count
          FetchEvent.attempt = 1 := rfl
      omega
    | badStatus c =>
      have ih1 := ih (i + 1)
      rw [getPageAux]
      simp only [h]
      rw [count_attempt_three_sleeps]
      omega
    | exn =>
      have ih1 := ih (i + 1)
      rw [getPageAux]
      simp only [h]
      rw [count_attempt_three_sleeps]
      omega

theorem getPageAux_sleep_before_attempt (att : Nat → AttemptResult) :
    ∀ r i k, (getPageAux att i r).1[k]? = some FetchEvent.attempt →
      ∃ k0, k = k0 + 1 ∧ (getPageAux att i r).1[k0]? = some FetchEvent.sleep := by
  intro r
  induction r with
  | zero => intro i k hk; simp [getPageAux] at hk
  | succ m ih =>
    intro i k hk
    cases h : att i with
    | ok t =>
      rw [getPageAux] at hk
      simp only [h] at hk
      rcases k with _ | _ | k2
      · exact absurd hk (by simp)
      · exact ⟨0, rfl, by rw [getPageAux]; simp [h]⟩
      · exact absurd hk (by simp)
    | badStatus c =>
      rw [getPageAux] at hk
      simp only [h] at hk
      rcases k with _ | _ | _ | k3
      · exact absurd hk (by simp)
      · exact ⟨0, rfl, by rw [getPageAux]; simp [h]⟩
      · exact absurd hk (by simp)
      · have hk3 : (getPageAux att (i + 1) m).1[k3]? = some FetchEvent.attempt := by
          simpa using hk
        obtain ⟨k0, rfl, hs⟩ := ih (i + 1) k3 hk3
        refine ⟨k0 + 3, by omega, ?_⟩
        rw [getPageAux]
        simpa [h] using hs
    | exn =>
      rw [getPageAux] at hk
      simp only [h] at hk
      rcases k with _ | _ | _ | k3
      · exact absurd hk (by simp)
      · exact ⟨0, rfl, by rw [getPageAux]; simp [h]⟩
      · exact absurd hk (by simp)
      · have hk3 : (getPageAux att (i + 1) m).1[k3]? = some FetchEvent.attempt := by
          simpa using hk
        obtain ⟨k0, rfl, hs⟩ := ih (i + 1) k3 hk3
        refine ⟨k0 + 3, by omega, ?_⟩
        rw [getPageAux]
        simpa [h] using hs

theorem getPageAux_none_of_all_fail (att : Nat → AttemptResult) :
    ∀ r i, (∀ j, i ≤ j → j < i + r → ∀ t, att j ≠ AttemptResult.ok t) →
      (getPageAux att i r).2 = Option.none := by
  intro r
  induction r with
  | zero => intro i _; rfl
  | succ m ih =>
    intro i hfail
    cases h : att i with
    | ok t => exact absurd h (hfail i (Nat.le_refl i) (by omega) t)
    | badStatus c =>
      rw [getPageAux]
      simp only [h]
      exact ih (i + 1) (fun j h1 h2 t => hfail j (by omega) (by omega) t)
    | exn =>
      rw [getPageAux]
      simp only [h]
      exact ih (i + 1) (fun j h1 h2 t => hfail j (by omega) (by omega) t)

/-- If an identifier is in a batch's to-process set and its scrape
fails, it is in `failed_ids` after that batch. -/
theorem step_failed_of_scrape_none (env : ScrapeEnv) (B : Nat)
    (ids : List String) (s : RunState) (q : Nat) (x : String)
    (htp : x ∈ batchToProcess B ids s q)
    (hx : env.scrape x = Option.none) :
    x ∈ (processOneBatch env B ids s q).failed := by
  have hne : (batchToProcess B ids s q).isEmpty = false := by
    cases hc : (batchToProcess B ids s q).isEmpty
    · rfl
    · rw [List.isEmpty_iff.mp hc] at htp
      exact absurd htp (List.not_mem_nil x)
  have hlf : x ∈ localFailed env B ids s q := mem_localFailed.mpr ⟨htp, hx⟩
  by_cases hd : (batchData env B ids s q).isEmpty = true
  · rw [step_nonempty_data_empty env B ids s q hne hd]
    simp only [Finset.mem_union, List.mem_toFinset]
    exact Or.inr hlf
  · replace hd : (batchData env B ids s q).isEmpty = false := by simpa using hd
    by_cases hf : env.dbFail s.saveCalls = true
    · rw [step_db_fail env B ids s q hne hd hf]
      simp only [Finset.mem_union, List.mem_toFinset]
      exact Or.inr hlf
    · replace hf : env.dbFail s.saveCalls = false := by simpa using hf
      rw [step_db_ok env B ids s q hne hd hf]
      simp only [Finset.mem_union, List.mem_toFinset]
      exact Or.inr hlf

/-! ## Slice and coverage lemmas -/

theorem batchSlice_subset (ids : List String) (B q : Nat) :
    batchSlice ids B q ⊆ ids := by
  intro x hx
  exact List.take_subset _ _ (List.drop_subset _ _ hx)

theorem mem_batchSlice_of_pos (ids : List String) (B q : Nat)
    (i : Fin ids.length) (h1 : q * B ≤ (i : Nat))
    (h2 : (i : Nat) < batchEnd B ids.length q) :
    ids.get i ∈ batchSlice ids B q := by
  have hget : (batchSlice ids B q)[(i : Nat) - q * B]? = some (ids.get i) := by
    unfold batchSlice
    rw [List.getElem?_drop]
    have harith : q * B + ((i : Nat) - q * B) = (i : Nat) := by omega
    rw [harith]
    rw [List.getElem?_take_of_lt h2]
    simp [List.getElem?_eq_getElem i.isLt, List.get_eq_getElem]
  exact List.getElem?_mem hget

theorem tp_nonempty_of_mem {B : Nat} {ids : List String} {s : RunState}
    {q : Nat} {x : String} (htp : x ∈ batchToProcess B ids s q) :
    (batchToProcess B ids s q).isEmpty = false := by
  cases hc : (batchToProcess B ids s q).isEmpty
  · rfl
  · rw [List.isEmpty_iff.mp hc] at htp
    exact absurd htp (List.not_mem_nil x)

theorem data_nonempty_of_localSuccessful {env : ScrapeEnv} {B : Nat}
    {ids : List String} {s : RunState} {q : Nat} {x : String}
    (hls : x ∈ localSuccessful env B ids s q) :
    (batchData env B ids s q).isEmpty = false := by
  cases hc : (batchData env B ids s q).isEmpty
  · rfl
  · rw [localSuccessful, List.isEmpty_iff.mp hc] at hls
    exact absurd hls (List.not_mem_nil x)

/-- Every identifier of a batch's to-process set ends up accounted for
(in `successful_ids` or `failed_ids`) after that batch's iteration. -/
theorem step_covers_tp (env : ScrapeEnv) (B : Nat) (ids : List String)
    (s : RunState) (q : Nat) :
    ∀ x ∈ batchToProcess B ids s q,
      x ∈ (processOneBatch env B ids s q).successful ∨
        x ∈ (processOneBatch env B ids s q).failed := by
  intro x htp
  cases hsc : env.scrape x with
  | none => exact Or.inr (step_failed_of_scrape_none env B ids s q x htp hsc)
  | some d =>
    have hls : x ∈ localSuccessful env B ids s q :=
      mem_localSuccessful.mpr ⟨htp, by simp [hsc]⟩
    have hne := tp_nonempty_of_mem htp
    have hdne := data_nonempty_of_localSuccessful hls
    by_cases hf : env.dbFail s.saveCalls = true
    · right
      rw [step_db_fail env B ids s q hne hdne hf]
      simp only [Finset.mem_union, List.mem_toFinset]
      exact Or.inl (Or.inr hls)
    · left
      replace hf : env.dbFail s.saveCalls = false := by simpa using hf
      rw [step_db_ok env B ids s q hne hdne hf]
      simp only [Finset.mem_union, List.mem_toFinset]
      exact Or.inr hls

/-- One iteration preserves disjointness of the two bookkeeping sets. -/
theorem step_disjoint (env : ScrapeEnv) (B : Nat) (ids : List String)
    (s : RunState) (q : Nat) (hd : Disjoint s.successful s.failed) :
    Disjoint (processOneBatch env B ids s q).successful
      (processOneBatch env B ids s q).failed := by
  rw [Finset.disjoint_left]
  intro a ha hFa
  rcases step_successful_cases env B ids s q a ha with haS | ⟨haTp, haSome⟩
  · rcases step_failed_cases env B ids s q a hFa with haF | haTp
    · exact Finset.disjoint_left.mp hd haS haF
    · exact (mem_batchToProcess.mp haTp).2.1 haS
  · -- a was scraped in this batch
    have hne := tp_nonempty_of_mem haTp
    have hnotS := (mem_batchToProcess.mp haTp).2.1
    have hnotF := (mem_batchToProcess.mp haTp).2.2
    obtain ⟨d, hsc⟩ := Option.isSome_iff_exists.mp haSome
    have hls : a ∈ localSuccessful env B ids s q :=
      mem_localSuccessful.mpr ⟨haTp, by simp [hsc]⟩
    have hdne := data_nonempty_of_localSuccessful hls
    by_cases hf : env.dbFail s.saveCalls = true
    · rw [step_db_fail env B ids s q hne hdne hf] at ha
      exact hnotS ha
    · replace hf : env.dbFail s.saveCalls = false := by simpa using hf
      rw [step_db_ok env B ids s q hne hdne hf] at hFa
      simp only [Finset.mem_union, List.mem_toFinset] at hFa
      rcases hFa with hFa | hFa
      · exact hnotF hFa
      · have := (mem_localFailed.mp hFa).2
        rw [hsc] at this
        exact Option.noConfusion this

/-- One iteration either leaves the progress file alone (skipped batch)
or appends exactly one checkpoint, equal to the new in-memory `progress`
dict, carrying cursor `batch_end - 1` and the updated sets. -/
theorem step_saves_shape (env : ScrapeEnv) (B : Nat) (ids : List String)
    (s : RunState) (q : Nat) :
    ((processOneBatch env B ids s q).saves = s.saves ∧
      (processOneBatch env B ids s q).progressVar = s.progressVar) ∨
    ((processOneBatch env B ids s q).saves =
        s.saves ++ [(processOneBatch env B ids s q).progressVar] ∧
      (processOneBatch env B ids s q).progressVar =
        { last_processed_idx := batchCursor B ids.length q,
          successful_ids := (processOneBatch env B ids s q).successful,
          failed_ids := (processOneBatch env B ids s q).failed }) := by
  by_cases h : (batchToProcess B ids s q).isEmpty = true
  · rw [step_skip env B ids s q h]
    exact Or.inl ⟨rfl, rfl⟩
  · replace h : (batchToProcess B ids s q).isEmpty = false := by
      simpa using h
    by_cases hd : (batchData env B ids s q).isEmpty = true
    · rw [step_nonempty_data_empty env B ids s q h hd]
      exact Or.inr ⟨rfl, rfl⟩
    · replace hd : (batchData env B ids s q).isEmpty = false := by simpa using hd
      by_cases hf : env.dbFail s.saveCalls = true
      · rw [step_db_fail env B ids s q h hd hf]
        exact Or.inr ⟨rfl, rfl⟩
      · replace hf : env.dbFail s.saveCalls = false := by simpa using hf
        rw [step_db_ok env B ids s q h hd hf]
        exact Or.inr ⟨rfl, rfl⟩

/-- The checkpoint cursor is monotone in the batch index. -/
theorem batchCursor_mono (B L : Nat) {q0 q : Nat} (h : q0 ≤ q) :
    batchCursor B L q0 ≤ batchCursor B L q := by
  unfold batchCursor batchEnd
  have : q0 * B ≤ q * B := Nat.mul_le_mul_right B h
  omega

/-! ## The run-level loop invariant -/

/-- The invariant threaded through the batch loop: the loaded sets only
grow, the two sets stay disjoint, every position below the next batch is
accounted for, every position at or below the in-memory cursor is
accounted for, and every checkpoint written so far satisfies the
ProgressRecord invariant. -/
structure LoopInv (B : Nat) (ids : List String) (p0 : Progress) (q : Nat)
    (s : RunState) : Prop where
  subS : p0.successful_ids ⊆ s.successful
  subF : p0.failed_ids ⊆ s.failed
  disj : Disjoint s.successful s.failed
  cov : ∀ i : Fin ids.length, (i : Nat) < q * B →
    ids.get i ∈ s.successful ∪ s.failed
  pvCov : ∀ i : Fin ids.length,
    (i : Int) ≤ s.progressVar.last_processed_idx →
    ids.get i ∈ s.successful ∪ s.failed
  savesOK : ∀ p ∈ s.saves,
    p.successful_ids ∩ p.failed_ids = ∅ ∧ Covered ids p

theorem loopInv_step (env : ScrapeEnv) (B : Nat) (ids : List String)
    (p0 : Progress) (q : Nat) (s : RunState) (h : LoopInv B ids p0 q s) :
    LoopInv B ids p0 (q + 1) (processOneBatch env B ids s q) := by
  have hsubS := step_successful_sub env B ids s q
  have hsubF := step_failed_sub env B ids s q
  have hcov : ∀ i : Fin ids.length, (i : Nat) < (q + 1) * B →
      ids.get i ∈ (processOneBatch env B ids s q).successful ∪
        (processOneBatch env B ids s q).failed := by
    intro i hi
    by_cases hlow : (i : Nat) < q * B
    · rcases Finset.mem_union.mp (h.cov i hlow) with hm | hm
      · exact Finset.mem_union.mpr (Or.inl (hsubS hm))
      · exact Finset.mem_union.mpr (Or.inr (hsubF hm))
    · have hge : q * B ≤ (i : Nat) := Nat.le_of_not_lt hlow
      have hend : (i : Nat) < batchEnd B ids.length q := by
        have := i.isLt
        unfold batchEnd
        have : (i : Nat) < q * B + B := by
          have : (q + 1) * B = q * B + B := by ring
          omega
        omega
      have hslice := mem_batchSlice_of_pos ids B q i hge hend
      by_cases hS : ids.get i ∈ s.successful
      · exact Finset.mem_union.mpr (Or.inl (hsubS hS))
      · by_cases hF : ids.get i ∈ s.failed
        · exact Finset.mem_union.mpr (Or.inr (hsubF hF))
        · have htp : ids.get i ∈ batchToProcess B ids s q :=
            mem_batchToProcess.mpr ⟨hslice, hS, hF⟩
          rcases step_covers_tp env B ids s q _ htp with hm | hm
          · exact Finset.mem_union.mpr (Or.inl hm)
          · exact Finset.mem_union.mpr (Or.inr hm)
  refine ⟨h.subS.trans hsubS, h.subF.trans hsubF,
    step_disjoint env B ids s q h.disj, hcov, ?_, ?_⟩
  · -- coverage of the in-memory progress cursor
    rcases step_saves_shape env B ids s q with ⟨_, hpv⟩ | ⟨_, hpv⟩
    · intro i hi
      rw [hpv] at hi
      rcases Finset.mem_union.mp (h.pvCov i hi) with hm | hm
      · exact Finset.mem_union.mpr (Or.inl (hsubS hm))
      · exact Finset.mem_union.mpr (Or.inr (hsubF hm))
    · intro i hi
      rw [hpv] at hi
      simp only [batchCursor] at hi
      apply hcov
      have hend : batchEnd B ids.length q ≤ q * B + B := by
        unfold batchEnd; omega
      have : (q + 1) * B = q * B + B := by ring
      omega
  · -- every checkpoint written so far satisfies the invariant
    rcases step_saves_shape env B ids s q with ⟨hsv, _⟩ | ⟨hsv, hpv⟩
    · rw [hsv]; exact h.savesOK
    · rw [hsv]
      intro p hp
      rcases List.mem_append.mp hp with hp | hp
      · exact h.savesOK p hp
      · have hp2 : p = (processOneBatch env B ids s q).progressVar := by
          simpa using hp
      -- the new checkpoint carries the updated sets and cursor
        subst hp2
        constructor
        · rw [hpv]
          exact Finset.disjoint_iff_inter_eq_empty.mp
            (step_disjoint env B ids s q h.disj)
        · intro i hi
          rw [hpv] at hi ⊢
          simp only [batchCursor] at hi
          apply hcov
          have hend : batchEnd B ids.length q ≤ q * B + B := by
            unfold batchEnd; omega
          have : (q + 1) * B = q * B + B := by ring
          omega

theorem loopInv_run (env : ScrapeEnv) (B : Nat) (ids : List String)
    (p0 : Progress) : ∀ n q s, LoopInv B ids p0 q s →
    LoopInv B ids p0 (q + n) (runLoop env B ids n q s) :=
  runLoop_ind env B ids (LoopInv B ids p0)
    (fun q s h => loopInv_step env B ids p0 q s h)

theorem loopInv_init (B : Nat) (ids : List String) (db0 : DB) (p0 : Progress)
    (hlast : -1 ≤ p0.last_processed_idx) (hinv : ProgressInv ids p0) :
    LoopInv B ids p0 (startBatch B p0.last_processed_idx)
      (initState db0 p0) := by
  have hcov0 : ∀ i : Fin ids.length,
      (i : Nat) < startBatch B p0.last_processed_idx * B →
      ids.get i ∈ p0.successful_ids ∪ p0.failed_ids := by
    intro i hi
    apply hinv.2 i
    have h1 : startBatch B p0.last_processed_idx * B ≤
        (p0.last_processed_idx + 1).toNat := by
      unfold startBatch
      exact Nat.div_mul_le_self _ _
    have h2 : (i : Nat) < (p0.last_processed_idx + 1).toNat := by omega
    have h3 : ((i : Nat) : Int) < p0.last_processed_idx + 1 := by
      have := Int.toNat_of_nonneg (by omega : (0 : Int) ≤ p0.last_processed_idx + 1)
      omega
    omega
  refine ⟨Finset.Subset.refl _, Finset.Subset.refl _,
    Finset.disjoint_iff_inter_eq_empty.mpr hinv.1, hcov0, ?_, ?_⟩
  · intro i hi
    exact hinv.2 i hi
  · intro p hp
    simp [initState] at hp

/-- `total_batches` is the ceiling of `L / B`. -/
theorem totalBatches_eq_ceilDiv (B L : Nat) : totalBatches B L = L ⌈/⌉ B :=
  (Nat.ceilDiv_eq_add_pred_div L B).symm

/-- All positions fit below `total_batches * B`. -/
theorem le_totalBatches_mul {B : Nat} (hB : 0 < B) (L : Nat) :
    L ≤ totalBatches B L * B := by
  have h := le_smul_ceilDiv (α := ℕ) (β := ℕ) hB (b := L)
  rw [totalBatches_eq_ceilDiv]
  rw [smul_eq_mul, Nat.mul_comm] at h
  exact h

/-- If every discovered identifier is already accounted for, the batch
loop is a no-op from any starting point: every batch is skipped. -/
theorem runLoop_const_of_covered (env : ScrapeEnv) (B : Nat)
    (ids : List String) (s : RunState)
    (hcov : ∀ x ∈ ids, x ∈ s.successful ∨ x ∈ s.failed) :
    ∀ n q, runLoop env B ids n q s = s := by
  intro n
  induction n with
  | zero => intro q; rfl
  | succ m ih =>
    intro q
    have htp : (batchToProcess B ids s q).isEmpty = true := by
      rw [List.isEmpty_iff, batchToProcess, List.filter_eq_nil_iff]
      intro a ha
      have hmem : a ∈ ids := batchSlice_subset ids B q ha
      rcases hcov a hmem with h | h <;> simp [h]
    show runLoop env B ids m (q + 1) (processOneBatch env B ids s q) = s
    rw [step_skip env B ids s q htp]
    exact ih (q + 1)

/-- C8: `get_page` makes at most `retries` attempts, every attempt is
immediately preceded by a `delay` wait (including the first), and it
returns `None` once all attempts fail, which makes `scrape_bacteria`
return `None`; at the run level an identifier whose scrape fails is never
added to `successful_ids`, ends up in `failed_ids` whenever it was
attempted, and no persistence payload ever contains a record scraped from
it. -/
theorem C8_fetch_retry_nonfatal (att : Nat → AttemptResult) (retries : Nat)
    (hfail : ∀ j, j < retries → ∀ t, att j ≠ AttemptResult.ok t)
    (env : ScrapeEnv) (B : Nat) (ids0 : List String) (maxB : Option Nat)
    (db0 : DB) (p0 : Progress) (intr : Interrupt) (x : String)
    (hx : env.scrape x = Option.none)
    (hxs : x ∉ p0.successful_ids) :
    ((get_page att retries).1.count FetchEvent.attempt ≤ retries) ∧
    (∀ k, (get_page att retries).1[k]? = some FetchEvent.attempt →
       ∃ k0, k = k0 + 1 ∧ (get_page att retries).1[k0]? = some FetchEvent.sleep) ∧
    ((get_page att retries).2 = Option.none) ∧
    (∀ parse, scrape_bacteria (fun _ => (get_page att retries).2) parse x =
       Option.none) ∧
    (x ∉ (process_batches env B ids0 maxB db0 p0 intr).state.successful) ∧
    (x ∈ (process_batches env B ids0 maxB db0 p0 intr).state.calls →
       x ∈ (process_batches env B ids0 maxB db0 p0 intr).state.failed) ∧
    (∀ pl ∈ (process_batches env B ids0 maxB db0 p0 intr).state.payloads,
       ∀ pr ∈ pl, pr.1 ≠ x) := by
  have hnone : (get_page att retries).2 = Option.none :=
    getPageAux_none_of_all_fail att retries 0
      (fun j _ h2 t => hfail j (by omega) t)
  have hrun : ∀ n q s,
      (x ∉ s.successful ∧ (x ∈ s.calls → x ∈ s.failed) ∧
        (∀ pl ∈ s.payloads, ∀ pr ∈ pl, pr.1 ≠ x)) →
      (x ∉ (runLoop env B (effectiveIds ids0 maxB) n q s).successful ∧
        (x ∈ (runLoop env B (effectiveIds ids0 maxB) n q s).calls →
          x ∈ (runLoop env B (effectiveIds ids0 maxB) n q s).failed) ∧
        (∀ pl ∈ (runLoop env B (effectiveIds ids0 maxB) n q s).payloads,
          ∀ pr ∈ pl, pr.1 ≠ x)) := by
    intro n q s hP
    refine runLoop_ind env B (effectiveIds ids0 maxB)
      (fun _ t => x ∉ t.successful ∧ (x ∈ t.calls → x ∈ t.failed) ∧
        (∀ pl ∈ t.payloads, ∀ pr ∈ pl, pr.1 ≠ x)) ?_ n q s hP
    intro q' t ht
    refine ⟨?_, ?_, ?_⟩
    · intro hmem
      rcases step_successful_cases env B _ t q' x hmem with hmem | ⟨_, hsome⟩
      · exact ht.1 hmem
      · rw [hx] at hsome
        exact absurd hsome (by simp)
    · intro hmem
      rcases step_calls_shape env B (effectiveIds ids0 maxB) t q' with hc | hc
      · rw [hc] at hmem
        exact step_failed_sub env B _ t q' (ht.2.1 hmem)
      · rw [hc] at hmem
        rcases List.mem_append.mp hmem with hmem | hmem
        · exact step_failed_sub env B _ t q' (ht.2.1 hmem)
        · exact step_failed_of_scrape_none env B _ t q' x hmem hx
    · intro pl hpl pr hpr
      rcases step_payloads_shape env B (effectiveIds ids0 maxB) t q' with hp | hp
      · rw [hp] at hpl
        exact ht.2.2 pl hpl pr hpr
      · rw [hp] at hpl
        rcases List.mem_append.mp hpl with hpl | hpl
        · exact ht.2.2 pl hpl pr hpr
        · have hpl2 : pl = batchData env B (effectiveIds ids0 maxB) t q' := by
            simpa using hpl
          subst hpl2
          have := (mem_payload_batchData hpr).2
          intro hcon
          rw [hcon, hx] at this
          exact Option.noConfusion this
  have hmain := hrun
    (iterCount (totalBatches B (effectiveIds ids0 maxB).length)
      (startBatch B p0.last_processed_idx) intr)
    (startBatch B p0.last_processed_idx) (initState db0 p0)
    ⟨hxs, by simp [initState], by simp [initState]⟩
  rw [process_batches_state]
  exact ⟨getPageAux_attempt_count att retries 0,
    fun k => getPageAux_sleep_before_attempt att retries 0 k,
    hnone, fun parse => by simp [scrape_bacteria, hnone],
    hmain.1, hmain.2.1, hmain.2.2⟩

theorem C8_witness :
    ((∀ j, j < 3 → ∀ t, (fun _ => AttemptResult.exn) j ≠ AttemptResult.ok t) ∧
      (⟨fun _ => Option.none, fun _ => false⟩ : ScrapeEnv).scrape "X003" =
        Option.none ∧
      "X003" ∉ freshProgress.successful_ids) ∧
    ((get_page (fun _ => AttemptResult.exn) 3).2 = Option.none ∧
      "X003" ∉ (process_batches ⟨fun _ => Option.none, fun _ => false⟩ 3
        ["X003"] Option.none [] freshProgress Interrupt.none).state.successful ∧
      ("X003" ∈ (process_batches ⟨fun _ => Option.none, fun _ => false⟩ 3
          ["X003"] Option.none [] freshProgress Interrupt.none).state.calls →
        "X003" ∈ (process_batches ⟨fun _ => Option.none, fun _ => false⟩ 3
          ["X003"] Option.none [] freshProgress Interrupt.none).state.failed)) := by
  have h := C8_fetch_retry_nonfatal (fun _ => AttemptResult.exn) 3
    (by intro j hj t; simp)
    ⟨fun _ => Option.none, fun _ => false⟩ 3 ["X003"] Option.none []
    freshProgress Interrupt.none "X003" rfl (by decide)
  exact ⟨⟨by intro j hj t; simp, rfl, by decide⟩,
    ⟨h.2.2.1, h.2.2.2.2.1, h.2.2.2.2.2.1⟩⟩

/-- C6: for a discovery sequence of pairwise-distinct identifiers and a
loaded record satisfying the ProgressRecord invariant, every record saved
by `process_batches` (each per-batch checkpoint and the final best-effort
save) has disjoint `successful_ids`/`failed_ids` whose union accounts for
every identifier at a flat position `≤ last_processed_idx`. -/
theorem C6_progress_record_invariant (env : ScrapeEnv) (B : Nat)
    (ids0 : List String) (maxB : Option Nat) (db0 : DB) (p0 : Progress)
    (intr : Interrupt) (hnd : (effectiveIds ids0 maxB).Nodup)
    (hlast : -1 ≤ p0.last_processed_idx)
    (hinv : ProgressInv (effectiveIds ids0 maxB) p0) :
    ∀ p ∈ (process_batches env B ids0 maxB db0 p0 intr).allSaves,
      p.successful_ids ∩ p.failed_ids = ∅ ∧
        Covered (effectiveIds ids0 maxB) p := by
  intro p hp
  have hloop := loopInv_run env B (effectiveIds ids0 maxB) p0
    (iterCount (totalBatches B (effectiveIds ids0 maxB).length)
      (startBatch B p0.last_processed_idx) intr)
    (startBatch B p0.last_processed_idx) (initState db0 p0)
    (loopInv_init B (effectiveIds ids0 maxB) db0 p0 hlast hinv)
  rw [RunResult.allSaves, process_batches_state] at hp
  rcases List.mem_append.mp hp with hp | hp
  · exact hloop.savesOK p hp
  · have hp2 : p = (process_batches env B ids0 maxB db0 p0 intr).finalSave := by
      simpa using hp
    subst hp2
    rw [process_batches_finalSave, process_batches_state]
    constructor
    · exact Finset.disjoint_iff_inter_eq_empty.mp hloop.disj
    · intro i hi
      simp only at hi
      rcases le_max_iff.mp hi with hi | hi
      · rcases Finset.mem_union.mp (hinv.2 i hi) with hm | hm
        · exact Finset.mem_union.mpr (Or.inl (hloop.subS hm))
        · exact Finset.mem_union.mpr (Or.inr (hloop.subF hm))
      · exact hloop.pvCov i hi

theorem C6_witness :
    ((["a", "b", "c"] : List String).Nodup ∧
      (-1 : Int) ≤ freshProgress.last_processed_idx ∧
      ProgressInv (effectiveIds ["a", "b", "c"] Option.none) freshProgress) ∧
    (∀ p ∈ (process_batches
        ⟨fun b => if b = "b" then Option.none else some [("bacteria_id", Val.str b)],
          fun n => n = 0⟩
        2 ["a", "b", "c"] Option.none [] freshProgress Interrupt.none).allSaves,
      p.successful_ids ∩ p.failed_ids = ∅ ∧
        Covered (effectiveIds ["a", "b", "c"] Option.none) p) :=
  ⟨⟨by decide, by decide, by decide⟩,
   C6_progress_record_invariant
     ⟨fun b => if b = "b" then Option.none else some [("bacteria_id", Val.str b)],
       fun n => n = 0⟩
     2 ["a", "b", "c"] Option.none [] freshProgress Interrupt.none
     (by decide) (by decide) (by decide)⟩

/-! ## Save-cursor chain machinery -/

/-- The bookkeeping needed to show cursor monotonicity across the saves
of one run: the checkpoints written so far have non-decreasing cursors,
the in-memory `progress` dict equals the last checkpoint (or the loaded
record if none was written), and its cursor is the checkpoint cursor of
some earlier batch. -/
structure SaveChain (B : Nat) (ids : List String) (p0 : Progress) (q : Nat)
    (s : RunState) : Prop where
  chain : List.Chain'
    (fun a b => a.last_processed_idx ≤ b.last_processed_idx) s.saves
  lastEq : ∀ p, s.saves.getLast? = some p → p = s.progressVar
  emptyPv : s.saves = [] → s.progressVar = p0
  pvCursor : s.saves ≠ [] → ∃ q0, q0 < q ∧
    s.progressVar.last_processed_idx = batchCursor B ids.length q0

theorem saveChain_step (env : ScrapeEnv) (B : Nat) (ids : List String)
    (p0 : Progress) (q : Nat) (s : RunState) (h : SaveChain B ids p0 q s) :
    SaveChain B ids p0 (q + 1) (processOneBatch env B ids s q) := by
  rcases step_saves_shape env B ids s q with ⟨hsv, hpv⟩ | ⟨hsv, hpv⟩
  · refine ⟨?_, ?_, ?_, ?_⟩
    · rw [hsv]; exact h.chain
    · rw [hsv, hpv]; exact h.lastEq
    · rw [hsv, hpv]; exact h.emptyPv
    · rw [hsv, hpv]
      intro hne
      obtain ⟨q0, hq0, hc⟩ := h.pvCursor hne
      exact ⟨q0, by omega, hc⟩
  · refine ⟨?_, ?_, ?_, ?_⟩
    · rw [hsv]
      rw [List.chain'_append]
      refine ⟨h.chain, List.chain'_singleton _, ?_⟩
      intro x hx y hy
      have hx2 := h.lastEq x hx
      subst hx2
      have hy2 : (processOneBatch env B ids s q).progressVar = y := by
        simpa using hy
      subst hy2
      rw [hpv]
      simp only
      cases hsaves : s.saves with
      | nil => simp [hsaves] at hx
      | cons a l =>
        have hne : s.saves ≠ [] := by rw [hsaves]; simp
        obtain ⟨q0, hq0, hc⟩ := h.pvCursor hne
        rw [hc]
        exact batchCursor_mono B ids.length (Nat.le_of_lt hq0)
    · rw [hsv]
      intro p hp
      rw [List.getLast?_concat] at hp
      exact (Option.some_inj.mp hp).symm
    · rw [hsv]
      intro hcon
      exact absurd hcon (by simp)
    · intro _
      rw [hpv]
      exact ⟨q, by omega, rfl⟩

theorem saveChain_run (env : ScrapeEnv) (B : Nat) (ids : List String)
    (p0 : Progress) : ∀ n q s, SaveChain B ids p0 q s →
    SaveChain B ids p0 (q + n) (runLoop env B ids n q s) :=
  runLoop_ind env B ids (SaveChain B ids p0)
    (fun q s h => saveChain_step env B ids p0 q s h)

/-- C7: within one run of `process_batches` the `last_processed_idx`
values of successive progress-file saves are non-decreasing, including
the final best-effort save of the cleanup path. -/
theorem C7_cursor_monotone (env : ScrapeEnv) (B : Nat) (ids0 : List String)
    (maxB : Option Nat) (db0 : DB) (p0 : Progress) (intr : Interrupt)
    (hlast : -1 ≤ p0.last_processed_idx) :
    List.Chain' (fun a b => a.last_processed_idx ≤ b.last_processed_idx)
      (process_batches env B ids0 maxB db0 p0 intr).allSaves := by
  have hchain := saveChain_run env B (effectiveIds ids0 maxB) p0
    (iterCount (totalBatches B (effectiveIds ids0 maxB).length)
      (startBatch B p0.last_processed_idx) intr)
    (startBatch B p0.last_processed_idx) (initState db0 p0)
    ⟨List.chain'_nil, by intro p hp; simp [initState] at hp, fun _ => rfl,
     by intro hcon; exact absurd rfl hcon⟩
  rw [RunResult.allSaves, process_batches_state]
  rw [List.chain'_append]
  refine ⟨hchain.chain, List.chain'_singleton _, ?_⟩
  intro x hx y hy
  have hx2 := hchain.lastEq x hx
  subst hx2
  have hy2 : (process_batches env B ids0 maxB db0 p0 intr).finalSave = y := by
    simpa using hy
  subst hy2
  rw [process_batches_finalSave, process_batches_state]
  simp only
  exact le_max_right _ _

theorem C7_witness :
    List.Chain' (fun a b => a.last_processed_idx ≤ b.last_processed_idx)
      (process_batches
        ⟨fun b => some [("bacteria_id", Val.str b)], fun n => n = 1⟩
        2 ["a", "b", "c", "d", "e"] Option.none [] freshProgress
        (Interrupt.keyboard 2)).allSaves :=
  C7_cursor_monotone
    ⟨fun b => some [("bacteria_id", Val.str b)], fun n => n = 1⟩
    2 ["a", "b", "c", "d", "e"] Option.none [] freshProgress
    (Interrupt.keyboard 2) (by decide)

/-- C2: after a run of `process_batches` that completed all batches,
running it again with the same discovery result and the progress record
the first run saved performs zero `scrape_bacteria` calls and writes back
exactly the record it loaded (the persisted ProgressRecord is
unchanged). -/
theorem C2_idempotent_resume (env : ScrapeEnv) (B : Nat) (ids0 : List String)
    (maxB : Option Nat) (db0 : DB) (p0 : Progress) (hB : 0 < B)
    (hlast : -1 ≤ p0.last_processed_idx)
    (hinv : ProgressInv (effectiveIds ids0 maxB) p0) :
    (process_batches env B ids0 maxB
        (process_batches env B ids0 maxB db0 p0 Interrupt.none).state.db
        (process_batches env B ids0 maxB db0 p0 Interrupt.none).finalSave
        Interrupt.none).state.calls = [] ∧
    (process_batches env B ids0 maxB
        (process_batches env B ids0 maxB db0 p0 Interrupt.none).state.db
        (process_batches env B ids0 maxB db0 p0 Interrupt.none).finalSave
        Interrupt.none).allSaves =
      [(process_batches env B ids0 maxB db0 p0 Interrupt.none).finalSave] := by
  have hcovAll : ∀ x ∈ effectiveIds ids0 maxB,
      x ∈ (process_batches env B ids0 maxB db0 p0 Interrupt.none).state.successful ∨
      x ∈ (process_batches env B ids0 maxB db0 p0 Interrupt.none).state.failed := by
    intro x hx
    obtain ⟨i, rfl⟩ := List.mem_iff_get.mp hx
    rw [process_batches_state]
    by_cases hst : startBatch B p0.last_processed_idx ≤
        totalBatches B (effectiveIds ids0 maxB).length
    · have hloop := loopInv_run env B (effectiveIds ids0 maxB) p0
        (iterCount (totalBatches B (effectiveIds ids0 maxB).length)
          (startBatch B p0.last_processed_idx) Interrupt.none)
        (startBatch B p0.last_processed_idx) (initState db0 p0)
        (loopInv_init B (effectiveIds ids0 maxB) db0 p0 hlast hinv)
      have hq : startBatch B p0.last_processed_idx +
          iterCount (totalBatches B (effectiveIds ids0 maxB).length)
            (startBatch B p0.last_processed_idx) Interrupt.none =
          totalBatches B (effectiveIds ids0 maxB).length := by
        simp only [iterCount]
        omega
      rw [hq] at hloop
      have hlt : (i : Nat) <
          totalBatches B (effectiveIds ids0 maxB).length * B :=
        Nat.lt_of_lt_of_le i.isLt (le_totalBatches_mul hB _)
      exact Finset.mem_union.mp (hloop.cov i hlt)
    · -- resume point beyond the batch count: the loop never runs
      have h0 : iterCount (totalBatches B (effectiveIds ids0 maxB).length)
          (startBatch B p0.last_processed_idx) Interrupt.none = 0 := by
        simp only [iterCount]
        omega
      rw [h0]
      show (effectiveIds ids0 maxB).get i ∈ (initState db0 p0).successful ∨
        (effectiveIds ids0 maxB).get i ∈ (initState db0 p0).failed
      have hstr : totalBatches B (effectiveIds ids0 maxB).length <
          startBatch B p0.last_processed_idx := Nat.lt_of_not_le hst
      have hge : (totalBatches B (effectiveIds ids0 maxB).length + 1) * B ≤
          (p0.last_processed_idx + 1).toNat := by
        rw [startBatch] at hstr
        exact (Nat.le_div_iff_mul_le hB).mp hstr
      have hL := le_totalBatches_mul hB (effectiveIds ids0 maxB).length
      have hcast := Int.toNat_of_nonneg
        (by omega : (0 : Int) ≤ p0.last_processed_idx + 1)
      have hile : ((i : Nat) : Int) ≤ p0.last_processed_idx := by
        have h1 : (i : Nat) < (effectiveIds ids0 maxB).length := i.isLt
        have h2 : (effectiveIds ids0 maxB).length <
            (p0.last_processed_idx + 1).toNat := by
          have : (totalBatches B (effectiveIds ids0 maxB).length + 1) * B =
              totalBatches B (effectiveIds ids0 maxB).length * B + B := by ring
          omega
        omega
      exact Finset.mem_union.mp (hinv.2 i hile)
  have hrun2 : (process_batches env B ids0 maxB
      (process_batches env B ids0 maxB db0 p0 Interrupt.none).state.db
      (process_batches env B ids0 maxB db0 p0 Interrupt.none).finalSave
      Interrupt.none).state =
      initState (process_batches env B ids0 maxB db0 p0 Interrupt.none).state.db
        (process_batches env B ids0 maxB db0 p0 Interrupt.none).finalSave := by
    rw [process_batches_state]
    apply runLoop_const_of_covered
    intro x hx
    rw [process_batches_finalSave]
    exact hcovAll x hx
  constructor
  · rw [hrun2]
    rfl
  · rw [RunResult.allSaves, hrun2]
    have hpv : (initState
        (process_batches env B ids0 maxB db0 p0 Interrupt.none).state.db
        (process_batches env B ids0 maxB db0 p0 Interrupt.none).finalSave).progressVar =
        (process_batches env B ids0 maxB db0 p0 Interrupt.none).finalSave := rfl
    have hsv : (initState
        (process_batches env B ids0 maxB db0 p0 Interrupt.none).state.db
        (process_batches env B ids0 maxB db0 p0 Interrupt.none).finalSave).saves =
        ([] : List Progress) := rfl
    rw [hsv]
    have hfs : (process_batches env B ids0 maxB
        (process_batches env B ids0 maxB db0 p0 Interrupt.none).state.db
        (process_batches env B ids0 maxB db0 p0 Interrupt.none).finalSave
        Interrupt.none).finalSave =
        (process_batches env B ids0 maxB db0 p0 Interrupt.none).finalSave := by
      rw [process_batches_finalSave, hrun2, hpv]
      rw [max_self]
      rfl
    rw [hfs]
    rfl

theorem C2_witness :
    (0 < 2 ∧ (-1 : Int) ≤ freshProgress.last_processed_idx ∧
      ProgressInv (effectiveIds ["a", "b", "c"] Option.none) freshProgress) ∧
    ((process_batches
        ⟨fun b => some [("bacteria_id", Val.str b)], fun _ => false⟩ 2
        ["a", "b", "c"] Option.none
        (process_batches ⟨fun b => some [("bacteria_id", Val.str b)], fun _ => false⟩
          2 ["a", "b", "c"] Option.none [] freshProgress Interrupt.none).state.db
        (process_batches ⟨fun b => some [("bacteria_id", Val.str b)], fun _ => false⟩
          2 ["a", "b", "c"] Option.none [] freshProgress Interrupt.none).finalSave
        Interrupt.none).state.calls = [] ∧
      (process_batches
        ⟨fun b => some [("bacteria_id", Val.str b)], fun _ => false⟩ 2
        ["a", "b", "c"] Option.none
        (process_batches ⟨fun b => some [("bacteria_id", Val.str b)], fun _ => false⟩
          2 ["a", "b", "c"] Option.none [] freshProgress Interrupt.none).state.db
        (process_batches ⟨fun b => some [("bacteria_id", Val.str b)], fun _ => false⟩
          2 ["a", "b", "c"] Option.none [] freshProgress Interrupt.none).finalSave
        Interrupt.none).allSaves =
      [(process_batches ⟨fun b => some [("bacteria_id", Val.str b)], fun _ => false⟩
          2 ["a", "b", "c"] Option.none [] freshProgress Interrupt.none).finalSave]) :=
  ⟨⟨by decide, by decide, by decide⟩,
   C2_idempotent_resume
     ⟨fun b => some [("bacteria_id", Val.str b)], fun _ => false⟩
     2 ["a", "b", "c"] Option.none [] freshProgress
     (by decide) (by decide) (by decide)⟩

/-- C5 counterexample: at a concrete interrupted run, `process_batches`
finalises the summary (end time and error message set) but lets no
exception escape — `raised` is `none`, i.e. the failure is NOT propagated
to the invoking caller, contradicting the claim's final clause (the
source `except` blocks catch `KeyboardInterrupt`/`Exception` and do not
re-raise). -/
theorem C5_counterexample :
    (process_batches
        ⟨fun b => some [("bacteria_id", Val.str b)], fun _ => false⟩
        1 ["a", "b"] Option.none [] freshProgress
        (Interrupt.keyboard 1)).raised = Option.none ∧
    (process_batches
        ⟨fun b => some [("bacteria_id", Val.str b)], fun _ => false⟩
        1 ["a", "b"] Option.none [] freshProgress
        (Interrupt.keyboard 1)).summary.errorMessage =
      some "Interrupted by user" ∧
    (process_batches
        ⟨fun b => some [("bacteria_id", Val.str b)], fun _ => false⟩
        1 ["a", "b"] Option.none [] freshProgress
        (Interrupt.keyboard 1)).summary.endTimeSet = true := by
  exact ⟨rfl, rfl, rfl⟩

/-- C5 (amended): on an external interrupt or any unhandled exception
during batch processing, `process_batches` sets the RunSummary's end
time and error message and performs a best-effort final save whose
cursor is the maximum of the previously-known cursor and the cursor as
of the abort — but then returns normally to its caller: the exception is
caught and not re-raised, so the failure is recorded only in the
RunSummary, not propagated. -/
theorem C5_abort_flush_amended (env : ScrapeEnv) (B : Nat)
    (ids0 : List String) (maxB : Option Nat) (db0 : DB) (p0 : Progress)
    (intr : Interrupt) (hintr : intr ≠ Interrupt.none) :
    (process_batches env B ids0 maxB db0 p0 intr).summary.endTimeSet = true ∧
    (process_batches env B ids0 maxB db0 p0 intr).summary.errorMessage =
      (match intr with
       | Interrupt.none => Option.none
       | Interrupt.keyboard _ => some "Interrupted by user"
       | Interrupt.error m _ => some m) ∧
    (process_batches env B ids0 maxB db0 p0 intr).finalSave.last_processed_idx =
      max p0.last_processed_idx
        (process_batches env B ids0 maxB db0 p0 intr).state.progressVar.last_processed_idx ∧
    (process_batches env B ids0 maxB db0 p0 intr).finalSave.successful_ids =
      (process_batches env B ids0 maxB db0 p0 intr).state.successful ∧
    (process_batches env B ids0 maxB db0 p0 intr).finalSave.failed_ids =
      (process_batches env B ids0 maxB db0 p0 intr).state.failed ∧
    (process_batches env B ids0 maxB db0 p0 intr).raised = Option.none := by
  cases intr with
  | none => exact absurd rfl hintr
  | keyboard k => exact ⟨rfl, rfl, rfl, rfl, rfl, rfl⟩
  | error m k => exact ⟨rfl, rfl, rfl, rfl, rfl, rfl⟩

theorem C5_witness :
    (Interrupt.error "boom" 1 ≠ Interrupt.none) ∧
    ((process_batches
        ⟨fun b => some [("bacteria_id", Val.str b)], fun _ => false⟩
        1 ["a", "b", "c"] Option.none [] freshProgress
        (Interrupt.error "boom" 1)).summary.endTimeSet = true ∧
      (process_batches
        ⟨fun b => some [("bacteria_id", Val.str b)], fun _ => false⟩
        1 ["a", "b", "c"] Option.none [] freshProgress
        (Interrupt.error "boom" 1)).summary.errorMessage = some "boom" ∧
      (process_batches
        ⟨fun b => some [("bacteria_id", Val.str b)], fun _ => false⟩
        1 ["a", "b", "c"] Option.none [] freshProgress
        (Interrupt.error "boom" 1)).raised = Option.none) := by
  have h := C5_abort_flush_amended
    ⟨fun b => some [("bacteria_id", Val.str b)], fun _ => false⟩
    1 ["a", "b", "c"] Option.none [] freshProgress
    (Interrupt.error "boom" 1) (by intro hcon; exact Interrupt.noConfusion hcon)
  exact ⟨by intro hcon; exact Interrupt.noConfusion hcon,
    h.1, h.2.1, h.2.2.2.2.2⟩

theorem C3_witness :
    "a" ∉ (process_batches
        ⟨fun b => some [("bacteria_id", Val.str b)], fun _ => false⟩
        2 ["a", "b", "c"] Option.none []
        ⟨1, {"a"}, {"b"}⟩ Interrupt.none).state.calls ∧
      processOneBatch ⟨fun b => some [("bacteria_id", Val.str b)], fun _ => false⟩
          2 (effectiveIds ["a", "b", "c"] Option.none)
          (initState [] ⟨-1, {"a", "b"}, ∅⟩) 0 =
        initState [] ⟨-1, {"a", "b"}, ∅⟩ :=
  ⟨(C3_no_double_processing ⟨fun b => some [("bacteria_id", Val.str b)], fun _ => false⟩
      2 ["a", "b", "c"] Option.none [] ⟨1, {"a"}, {"b"}⟩ Interrupt.none).1
      "a" (by decide),
   (C3_no_double_processing ⟨fun b => some [("bacteria_id", Val.str b)], fun _ => false⟩
      2 ["a", "b", "c"] Option.none [] ⟨1, {"a"}, {"b"}⟩ Interrupt.none).2
      (initState [] ⟨-1, {"a", "b"}, ∅⟩) 0 (by decide)⟩

end KDS
